import Mathlib

/-!
Shallow embedding of the verification route of Creeland/web-auth
(`app/routes/_auth+/verify.tsx`, given as src/unnamed/part_000).

The route orchestrates TOTP e-mail verification for three flows
(forgot-password, onboarding, change-email): `prepareVerification`
issues a challenge (delete old rows for the `(type, target)` key, create
one new row), `isCodeValid` looks up the live challenge and checks the
submitted code with `verifyTOTP`, and `validateRequest` parses the
submission, validates the code, deletes the consumed row with
`prisma.verification.delete`, and dispatches to the flow handler.

The Prisma `verification` table is modelled as a list of records; the
`target_type` unique index of the table means a delete by that key
removes every row carrying the key.  Time is in milliseconds, as
returned by `Date.now()`; the TOTP layer works in seconds, hence the
`now / 1000` conversions.  Store operations additionally produce an
event trace (`Event`) recording reads, consuming deletes and handler
dispatches, so that ordering and frame claims can be stated.

The TOTP primitive itself lives in `~/utils/totp.server.ts`, which is
not part of the given sources; it is modelled from the spec (section
4.1): `generateTOTP` is a deterministic function of the secret, the
algorithm and the time step `time / period`, producing a fixed-width
six-digit numeric string, and `verifyTOTP` recomputes the code for the
current step and `window` adjacent steps, comparing with a
constant-time (non-short-circuiting) comparison after a length check.
-/

/-- The closed set of verification types (`types` in the source). -/
inductive VerificationType where
  | forgotPassword
  | onboarding
  | changeEmail
deriving DecidableEq

/-- Parse the raw `type` form value, as the `z.enum(types)` schema does. -/
def parseVerificationType : String → Option VerificationType
  | "forgot-password" => some VerificationType.forgotPassword
  | "onboarding" => some VerificationType.onboarding
  | "change-email" => some VerificationType.changeEmail
  | _ => none

/-- The per-type OTP configuration (`typeOTPConfig` in the source); every
type is configured with window zero. -/
def typeOTPConfig (_ : VerificationType) : Nat := 0

/-- Modelled from the spec: a numeric digest of a string, standing in for
the byte content of the secret and algorithm inputs of the TOTP
derivation in `totp.server.ts`, which is not among the given sources. -/
def strDigest (s : String) : Nat :=
  s.data.foldl (fun a c => a * 256 + c.toNat) 0

/-- Modelled from the spec: the numeric TOTP value for one time step, a
deterministic function of the secret, the algorithm and the step,
reduced to the six-digit space. -/
def totpAt (secret algorithm : String) (step : Int) : Nat :=
  (((strDigest secret : Int) + (strDigest algorithm : Int) + step).emod 1000000).toNat

/-- Render a numeric TOTP value as a fixed-width six-digit string. -/
def padSix (n : Nat) : String :=
  String.mk [Nat.digitChar (n / 100000 % 10), Nat.digitChar (n / 10000 % 10),
    Nat.digitChar (n / 1000 % 10), Nat.digitChar (n / 100 % 10),
    Nat.digitChar (n / 10 % 10), Nat.digitChar (n % 10)]

/-- Modelled from the spec: the six-digit code for one time step. -/
def generateAtStep (secret algorithm : String) (step : Int) : String :=
  padSix (totpAt secret algorithm step)

/-- Modelled from the spec: `generate(secret, algorithm, period, at_time)`
of the TOTP primitive, a deterministic function of the secret and the
time step `at_time / period` (time in seconds). -/
def generateTOTP (secret algorithm : String) (period time : Nat) : String :=
  generateAtStep secret algorithm (Int.ofNat (time / period))

/-- Number of mismatching positions of two character lists; the
comparison inspects every position instead of stopping at the first
difference. -/
def diffCount (a b : List Char) : Nat :=
  (List.zipWith (fun c d => if c == d then 0 else 1) a b).sum

/-- Modelled from the spec: constant-time string comparison — a length
check and a full scan accumulating the number of differing positions. -/
def constantTimeEq (a b : String) : Bool :=
  a.length == b.length && diffCount a.data b.data == 0

/-- The time steps examined by a verification with the given window:
the current step and `window` steps on each side. -/
def stepsFor (step : Int) (window : Nat) : List Int :=
  (List.range (2 * window + 1)).map (fun i => step - (window : Int) + (i : Int))

/-- Modelled from the spec: `verify(code, secret, algorithm, period,
window, at_time)` of the TOTP primitive — a code of incorrect length
never matches, otherwise the code is compared (constant-time) against
the recomputed code of every step in the window. -/
def verifyTOTP (otp secret algorithm : String) (period window time : Nat) : Bool :=
  if otp.length ≠ 6 then false
  else (stepsFor (Int.ofNat (time / period)) window).any
    (fun st => constantTimeEq otp (generateAtStep secret algorithm st))

/-- One row of the Prisma `verification` table, as selected and written
by the route. `expiresAt` is in milliseconds; `none` means no absolute
expiry. -/
structure Verification where
  type : VerificationType
  target : String
  secret : String
  algorithm : String
  period : Nat
  expiresAt : Option Nat
deriving DecidableEq

/-- The verification table. -/
abbrev Store := List Verification

/-- Does a row carry the `(type, target)` natural key? -/
def keyMatches (ty : VerificationType) (tgt : String) (v : Verification) : Bool :=
  v.type == ty && v.target == tgt

/-- Is a row live at `now` — no absolute expiry, or expiry strictly in
the future (the `expiresAt: null` / `expiresAt: { gt: new Date() }`
disjunction of the `findFirst` query)? -/
def isLiveAt (now : Nat) (v : Verification) : Bool :=
  match v.expiresAt with
  | none => true
  | some e => decide (now < e)

/-- The `prisma.verification.findFirst` lookup of `isCodeValid`: the
first row for the key that is live at `now`. -/
def verificationFindFirstLive (s : Store) (ty : VerificationType) (tgt : String)
    (now : Nat) : Option Verification :=
  List.find? (fun v => keyMatches ty tgt v && isLiveAt now v) s

/-- The `prisma.verification.deleteMany({ where: { type, target } })`
call of `prepareVerification`: remove every row with the key. -/
def verificationDeleteMany (s : Store) (ty : VerificationType) (tgt : String) : Store :=
  List.filter (fun v => !(keyMatches ty tgt v)) s

/-- The error raised by a Prisma `delete` whose unique `where` clause
matches no row (error code P2025). -/
inductive PrismaError where
  | recordNotFound
deriving DecidableEq

/-- The `prisma.verification.delete({ where: { target_type } })` call of
`validateRequest`: a delete by the unique key, which raises P2025 when
no row carries the key.  Because of the unique index, deleting the
matching row is the same as filtering the key out. -/
def verificationDeleteByKey (s : Store) (ty : VerificationType) (tgt : String) :
    Except PrismaError Store :=
  if List.any s (keyMatches ty tgt) then Except.ok (verificationDeleteMany s ty tgt)
  else Except.error PrismaError.recordNotFound

/-- The row created by `prepareVerification`: the source spreads the
TOTP configuration (secret, algorithm SHA256, period) into the create
call and sets `expiresAt = Date.now() + period * 1000`. -/
def newVerification (ty : VerificationType) (tgt : String) (period : Nat)
    (secret : String) (now : Nat) : Verification :=
  { type := ty, target := tgt, secret := secret, algorithm := "SHA256",
    period := period, expiresAt := some (now + period * 1000) }

/-- The `prepareVerification` operation (source lines 77-108): derive
the current code (the source passes algorithm SHA256 and lets the TOTP
layer draw a fresh random secret, modelled here as the `secret`
argument), delete the old rows for the key, insert the one new row,
and return the new store with the plaintext code. -/
def prepareVerification (s : Store) (ty : VerificationType) (tgt : String)
    (period : Nat) (secret : String) (now : Nat) : Store × String :=
  (verificationDeleteMany s ty tgt ++ [newVerification ty tgt period secret now],
    generateTOTP secret "SHA256" period (now / 1000))

/-- Events recorded against the persistence store and the dispatcher:
the read performed by `isCodeValid`, the consuming delete, and the
invocation of a flow handler. -/
inductive Event where
  | findLive (ty : VerificationType) (tgt : String)
  | deleteKey (ty : VerificationType) (tgt : String)
  | dispatch (ty : VerificationType) (tgt : String)
deriving DecidableEq

/-- Does the event write to the store? -/
def Event.isStoreWrite : Event → Bool
  | Event.deleteKey _ _ => true
  | _ => false

/-- The `isCodeValid` check (source lines 116-145) together with its
store-access trace: one `findFirst` read; when no live row exists the
result is false, otherwise the TOTP verification of the submitted code
against the stored secret, algorithm and period with the configured
window, at the current time (milliseconds converted to seconds). -/
def isCodeValidT (s : Store) (code : String) (ty : VerificationType) (tgt : String)
    (now : Nat) : Bool × List Event :=
  match verificationFindFirstLive s ty tgt now with
  | none => (false, [Event.findLive ty tgt])
  | some v =>
      (verifyTOTP code v.secret v.algorithm v.period (typeOTPConfig ty) (now / 1000),
        [Event.findLive ty tgt])

/-- The boolean result of `isCodeValid`. -/
def isCodeValid (s : Store) (code : String) (ty : VerificationType) (tgt : String)
    (now : Nat) : Bool :=
  (isCodeValidT s code ty tgt now).1

/-- A submission body (FormData of the action, URLSearchParams of the
loader): the fields read by `VerifySchema` plus the conform intent
field, each possibly absent. -/
structure Body where
  intent : Option String
  code : Option String
  type : Option String
  target : Option String
  redirectTo : Option String
deriving DecidableEq

/-- The parsed value of a submission that passed `VerifySchema`. -/
structure VerifyData where
  code : String
  type : VerificationType
  target : String
  redirectTo : Option String
deriving DecidableEq

/-- The conform submission intent: the intent field of the body,
defaulting to submit when the field is absent. -/
def submissionIntent (b : Body) : String :=
  (b.intent).getD "submit"

/-- The base `VerifySchema` object parse (source lines 34-39): the code
must be present with length exactly six (`min(6).max(6)`), the type
must be one of the three enum members, the target must be present, the
redirect target is optional.  When this base parse fails, the
`superRefine` — and with it `isCodeValid` — is never run. -/
def schemaParse (b : Body) : Option VerifyData :=
  match b.code, b.type, b.target with
  | some c, some tyRaw, some tgt =>
      if c.length = 6 then
        match parseVerificationType tyRaw with
        | some ty => some { code := c, type := ty, target := tgt, redirectTo := b.redirectTo }
        | none => none
      else none
  | _, _, _ => none

/-- The response produced by `validateRequest`: the idle response for a
non-submit intent, the 400 error response for a failed validation, the
dispatch to the flow handler for the verified type and target, or the
propagated Prisma error of the consuming delete. -/
inductive Outcome where
  | idle
  | error
  | handled (ty : VerificationType) (tgt : String)
  | dbError
deriving DecidableEq

/-- Is the outcome a dispatch to a flow handler? -/
def Outcome.isHandled : Outcome → Bool
  | Outcome.handled _ _ => true
  | _ => false

/-- The result of one run of the route: the outcome, the resulting
store, and the trace of store and dispatcher events. -/
structure RunResult where
  outcome : Outcome
  store : Store
  events : List Event
deriving DecidableEq

/-- The `validateRequest` flow (source lines 147-201): parse the body
against the schema, whose refinement runs `isCodeValid` exactly when
the base parse succeeded; return the idle response when the intent is
not submit; return the 400 error response when the submission has no
value (schema failure or invalid code); otherwise delete the consumed
row by its unique key and dispatch to the handler selected by the
verified type. -/
def validateRequest (s : Store) (b : Body) (now : Nat) : RunResult :=
  match schemaParse b with
  | none =>
      if submissionIntent b = "submit" then ⟨Outcome.error, s, []⟩
      else ⟨Outcome.idle, s, []⟩
  | some d =>
      if submissionIntent b = "submit" then
        if isCodeValid s d.code d.type d.target now then
          match verificationDeleteByKey s d.type d.target with
          | Except.ok s1 =>
              ⟨Outcome.handled d.type d.target, s1,
                (isCodeValidT s d.code d.type d.target now).2 ++
                  [Event.deleteKey d.type d.target, Event.dispatch d.type d.target]⟩
          | Except.error _ =>
              ⟨Outcome.dbError, s,
                (isCodeValidT s d.code d.type d.target now).2 ++
                  [Event.deleteKey d.type d.target]⟩
        else ⟨Outcome.error, s, (isCodeValidT s d.code d.type d.target now).2⟩
      else ⟨Outcome.idle, s, (isCodeValidT s d.code d.type d.target now).2⟩

/-- The `loader` (source lines 41-56): without a code query parameter it
returns the idle response untouched; otherwise it runs the same
`validateRequest` on the query parameters. -/
def loader (s : Store) (params : Body) (now : Nat) : RunResult :=
  if params.code = none then ⟨Outcome.idle, s, []⟩
  else validateRequest s params now

/-- The `action` (source lines 58-60): `validateRequest` on the form
data. -/
def action (s : Store) (b : Body) (now : Nat) : RunResult :=
  validateRequest s b now

/-- Number of rows of the store carrying the key. -/
def countKey (s : Store) (ty : VerificationType) (tgt : String) : Nat :=
  (List.filter (keyMatches ty tgt) s).length

/-- At most one row per `(type, target)` key. -/
def atMostOnePerKey (s : Store) : Prop :=
  ∀ ty tgt, countKey s ty tgt ≤ 1

/-- One store-mutating operation of the route: a challenge issuance or a
submission. -/
inductive StoreOp where
  | prepare (ty : VerificationType) (tgt : String) (period : Nat) (secret : String) (now : Nat)
  | submit (b : Body) (now : Nat)

/-- Apply one operation to the store. -/
def applyOp (s : Store) : StoreOp → Store
  | StoreOp.prepare ty tgt period secret now => (prepareVerification s ty tgt period secret now).1
  | StoreOp.submit b now => (validateRequest s b now).store

/-- Run a sequence of operations from a starting store. -/
def runOps (s : Store) (ops : List StoreOp) : Store :=
  ops.foldl applyOp s

/-! ## Concrete demonstration values

A challenge for the onboarding flow of target a@x.com, issued at time
zero with period 300 seconds and secret A; its code at step zero is
560247.  `secretColl` is a distinct secret whose digest is congruent to
the digest of A modulo a million, so both secrets yield the same
six-digit code at the same step. -/

def vDemo : Verification :=
  { type := VerificationType.onboarding, target := "a@x.com", secret := "A",
    algorithm := "SHA256", period := 300, expiresAt := some 300000 }

def sDemo : Store := [vDemo]

def bDemo : Body :=
  { intent := none, code := some "560247", type := some "onboarding",
    target := some "a@x.com", redirectTo := none }

def bWrong : Body :=
  { intent := none, code := some "000000", type := some "onboarding",
    target := some "a@x.com", redirectTo := none }

def bShort : Body :=
  { intent := none, code := some "1234", type := some "onboarding",
    target := some "a@x.com", redirectTo := none }

def vExpired : Verification :=
  { type := VerificationType.onboarding, target := "a@x.com", secret := "A",
    algorithm := "SHA256", period := 300, expiresAt := some 1000 }

def secretColl : String := String.mk [Char.ofNat 1000065]

/-! ## Lemmas about the TOTP primitive -/

theorem diffCount_self (l : List Char) : diffCount l l = 0 := by
  induction l with
  | nil => rfl
  | cons c l _ => simp [diffCount, List.zipWith_cons_cons]

theorem constantTimeEq_self (s : String) : constantTimeEq s s = true := by
  simp [constantTimeEq, diffCount_self]

theorem diffCount_zero (l1 : List Char) : ∀ l2 : List Char,
    l1.length = l2.length → diffCount l1 l2 = 0 → l1 = l2 := by
  induction l1 with
  | nil =>
      intro l2 hlen _
      cases l2 with
      | nil => rfl
      | cons d l2 => simp at hlen
  | cons c l1 ih =>
      intro l2 hlen h
      cases l2 with
      | nil => simp at hlen
      | cons d l2 =>
          simp only [diffCount, List.zipWith_cons_cons, List.sum_cons] at h
          split at h
          · rename_i hcd
            have hc : c = d := by simpa using hcd
            rw [Nat.zero_add] at h
            rw [hc, ih l2 (by simpa using hlen) h]
          · omega

theorem constantTimeEq_eq {a b : String} (h : constantTimeEq a b = true) : a = b := by
  unfold constantTimeEq at h
  rw [Bool.and_eq_true] at h
  obtain ⟨h1, h2⟩ := h
  have hlen0 : a.length = b.length := by simpa using h1
  have hlen : a.data.length = b.data.length := hlen0
  have h0 : diffCount a.data b.data = 0 := by simpa using h2
  have hd : a.data = b.data := diffCount_zero a.data b.data hlen h0
  cases a
  cases b
  exact congrArg String.mk hd

theorem generateTOTP_length (secret algorithm : String) (period time : Nat) :
    (generateTOTP secret algorithm period time).length = 6 := rfl

theorem stepsFor_zero (step : Int) : stepsFor step 0 = [step] := by
  unfold stepsFor
  rw [show List.range (2 * 0 + 1) = [0] from rfl]
  simp

theorem verifyTOTP_generateTOTP (secret algorithm : String) (period time : Nat) :
    verifyTOTP (generateTOTP secret algorithm period time) secret algorithm period 0 time
      = true := by
  unfold verifyTOTP
  rw [if_neg (by rw [generateTOTP_length]; omega)]
  rw [stepsFor_zero]
  simp only [List.any_cons, List.any_nil, Bool.or_false]
  exact constantTimeEq_self _

theorem verifyTOTP_window0_eq {otp secret algorithm : String} {period time : Nat}
    (h : verifyTOTP otp secret algorithm period 0 time = true) :
    otp = generateTOTP secret algorithm period time := by
  unfold verifyTOTP at h
  by_cases hl : otp.length ≠ 6
  · rw [if_pos hl] at h
    exact absurd h (by simp)
  · rw [if_neg hl, stepsFor_zero] at h
    simp only [List.any_cons, List.any_nil, Bool.or_false] at h
    exact constantTimeEq_eq h

/-! ## Lemmas about the store operations -/

theorem findFirstLive_some {s : Store} {ty : VerificationType} {tgt : String}
    {now : Nat} {v : Verification}
    (h : verificationFindFirstLive s ty tgt now = some v) :
    v ∈ s ∧ v.type = ty ∧ v.target = tgt ∧
      (v.expiresAt = none ∨ ∃ e, v.expiresAt = some e ∧ now < e) := by
  have hmem := List.mem_of_find?_eq_some h
  have hp := List.find?_some h
  rw [Bool.and_eq_true] at hp
  obtain ⟨hk, hl⟩ := hp
  unfold keyMatches at hk
  rw [Bool.and_eq_true] at hk
  refine ⟨hmem, by simpa using hk.1, by simpa using hk.2, ?_⟩
  unfold isLiveAt at hl
  cases he : v.expiresAt with
  | none => exact Or.inl rfl
  | some e =>
      rw [he] at hl
      exact Or.inr ⟨e, rfl, of_decide_eq_true hl⟩

theorem findFirstLive_none {s : Store} {ty : VerificationType} {tgt : String} {now : Nat}
    (h : ∀ v ∈ s, ¬(v.type = ty ∧ v.target = tgt)) :
    verificationFindFirstLive s ty tgt now = none := by
  unfold verificationFindFirstLive
  rw [List.find?_eq_none]
  intro v hv
  simp only [keyMatches, Bool.and_eq_true, beq_iff_eq]
  rintro ⟨⟨h1, h2⟩, -⟩
  exact h v hv ⟨h1, h2⟩

theorem isCodeValid_false_of_noKey {s : Store} {ty : VerificationType} {tgt : String}
    {now : Nat} {code : String}
    (h : ∀ v ∈ s, ¬(v.type = ty ∧ v.target = tgt)) :
    isCodeValid s code ty tgt now = false := by
  unfold isCodeValid isCodeValidT
  rw [findFirstLive_none h]

theorem isCodeValidT_events (s : Store) (code : String) (ty : VerificationType)
    (tgt : String) (now : Nat) :
    (isCodeValidT s code ty tgt now).2 = [Event.findLive ty tgt] := by
  unfold isCodeValidT
  cases verificationFindFirstLive s ty tgt now <;> rfl

theorem deleteByKey_ok_of_valid {s : Store} {code : String} {ty : VerificationType}
    {tgt : String} {now : Nat}
    (h : isCodeValid s code ty tgt now = true) :
    verificationDeleteByKey s ty tgt = Except.ok (verificationDeleteMany s ty tgt) := by
  unfold isCodeValid isCodeValidT at h
  rcases hf : verificationFindFirstLive s ty tgt now with - | v
  · rw [hf] at h
    exact absurd h (by simp)
  · have hv := findFirstLive_some hf
    unfold verificationDeleteByKey
    rw [if_pos]
    rw [List.any_eq_true]
    exact ⟨v, hv.1, by simp [keyMatches, hv.2.1, hv.2.2.1]⟩

theorem noKey_deleteMany (s : Store) (ty : VerificationType) (tgt : String) :
    ∀ v ∈ verificationDeleteMany s ty tgt, ¬(v.type = ty ∧ v.target = tgt) := by
  intro v hv
  rw [verificationDeleteMany, List.mem_filter] at hv
  obtain ⟨-, hk⟩ := hv
  rintro ⟨h1, h2⟩
  simp [keyMatches, h1, h2] at hk

/-! ## Scenario equations for the request flow -/

theorem vr_none_submit {s : Store} {b : Body} {now : Nat}
    (hp : schemaParse b = none) (hi : submissionIntent b = "submit") :
    validateRequest s b now = ⟨Outcome.error, s, []⟩ := by
  unfold validateRequest
  simp only [hp]
  rw [if_pos hi]

theorem vr_none_idle {s : Store} {b : Body} {now : Nat}
    (hp : schemaParse b = none) (hi : ¬ submissionIntent b = "submit") :
    validateRequest s b now = ⟨Outcome.idle, s, []⟩ := by
  unfold validateRequest
  simp only [hp]
  rw [if_neg hi]

theorem vr_some_idle {s : Store} {b : Body} {now : Nat} {d : VerifyData}
    (hp : schemaParse b = some d) (hi : ¬ submissionIntent b = "submit") :
    validateRequest s b now = ⟨Outcome.idle, s, [Event.findLive d.type d.target]⟩ := by
  unfold validateRequest
  simp only [hp]
  rw [if_neg hi, isCodeValidT_events]

theorem vr_some_invalid {s : Store} {b : Body} {now : Nat} {d : VerifyData}
    (hp : schemaParse b = some d) (hi : submissionIntent b = "submit")
    (hv : isCodeValid s d.code d.type d.target now = false) :
    validateRequest s b now = ⟨Outcome.error, s, [Event.findLive d.type d.target]⟩ := by
  unfold validateRequest
  simp only [hp]
  rw [if_pos hi, if_neg (by simp [hv]), isCodeValidT_events]

theorem vr_some_valid {s : Store} {b : Body} {now : Nat} {d : VerifyData}
    (hp : schemaParse b = some d) (hi : submissionIntent b = "submit")
    (hv : isCodeValid s d.code d.type d.target now = true) :
    validateRequest s b now =
      ⟨Outcome.handled d.type d.target, verificationDeleteMany s d.type d.target,
        [Event.findLive d.type d.target, Event.deleteKey d.type d.target,
          Event.dispatch d.type d.target]⟩ := by
  unfold validateRequest
  simp only [hp]
  rw [if_pos hi, if_pos hv, deleteByKey_ok_of_valid hv, isCodeValidT_events]
  rfl

/-! ## Derived facts about the request flow -/

theorem validateRequest_handled_inv {s : Store} {b : Body} {now : Nat}
    {ty : VerificationType} {tgt : String}
    (h : (validateRequest s b now).outcome = Outcome.handled ty tgt) :
    ∃ d, schemaParse b = some d ∧ d.type = ty ∧ d.target = tgt ∧
      submissionIntent b = "submit" ∧ isCodeValid s d.code d.type d.target now = true ∧
      (validateRequest s b now).store = verificationDeleteMany s ty tgt ∧
      (validateRequest s b now).events =
        [Event.findLive ty tgt, Event.deleteKey ty tgt, Event.dispatch ty tgt] := by
  rcases hp : schemaParse b with - | d
  · by_cases hi : submissionIntent b = "submit"
    · rw [vr_none_submit hp hi] at h
      simp at h
    · rw [vr_none_idle hp hi] at h
      simp at h
  · by_cases hi : submissionIntent b = "submit"
    · rcases hv : isCodeValid s d.code d.type d.target now with - | -
      · rw [vr_some_invalid hp hi hv] at h
        simp at h
      · rw [vr_some_valid hp hi hv] at h
        simp only [Outcome.handled.injEq] at h
        obtain ⟨h1, h2⟩ := h
        refine ⟨d, rfl, h1, h2, hi, hv, ?_, ?_⟩
        · rw [vr_some_valid hp hi hv, h1, h2]
        · rw [vr_some_valid hp hi hv, h1, h2]
    · rw [vr_some_idle hp hi] at h
      simp at h

theorem validateRequest_invalid {s : Store} {b : Body} {now : Nat} {d : VerifyData}
    (hp : schemaParse b = some d)
    (hv : isCodeValid s d.code d.type d.target now = false) :
    (validateRequest s b now).outcome.isHandled = false ∧
      (validateRequest s b now).store = s := by
  by_cases hi : submissionIntent b = "submit"
  · rw [vr_some_invalid hp hi hv]
    exact ⟨rfl, rfl⟩
  · rw [vr_some_idle hp hi]
    exact ⟨rfl, rfl⟩

theorem validateRequest_store_cases (s : Store) (b : Body) (now : Nat) :
    (validateRequest s b now).store = s ∨
      ∃ ty tgt, (validateRequest s b now).store = verificationDeleteMany s ty tgt := by
  rcases hp : schemaParse b with - | d
  · by_cases hi : submissionIntent b = "submit"
    · rw [vr_none_submit hp hi]
      exact Or.inl rfl
    · rw [vr_none_idle hp hi]
      exact Or.inl rfl
  · by_cases hi : submissionIntent b = "submit"
    · rcases hv : isCodeValid s d.code d.type d.target now with - | -
      · rw [vr_some_invalid hp hi hv]
        exact Or.inl rfl
      · rw [vr_some_valid hp hi hv]
        exact Or.inr ⟨d.type, d.target, rfl⟩
    · rw [vr_some_idle hp hi]
      exact Or.inl rfl

theorem validateRequest_not_handled_store {s : Store} {b : Body} {now : Nat}
    (h : (validateRequest s b now).outcome.isHandled = false) :
    (validateRequest s b now).store = s := by
  rcases hp : schemaParse b with - | d
  · by_cases hi : submissionIntent b = "submit"
    · rw [vr_none_submit hp hi]
    · rw [vr_none_idle hp hi]
  · by_cases hi : submissionIntent b = "submit"
    · rcases hv : isCodeValid s d.code d.type d.target now with - | -
      · rw [vr_some_invalid hp hi hv]
      · rw [vr_some_valid hp hi hv] at h
        simp [Outcome.isHandled] at h
    · rw [vr_some_idle hp hi]

theorem validateRequest_no_dbError (s : Store) (b : Body) (now : Nat) :
    (validateRequest s b now).outcome ≠ Outcome.dbError := by
  rcases hp : schemaParse b with - | d
  · by_cases hi : submissionIntent b = "submit"
    · rw [vr_none_submit hp hi]
      simp
    · rw [vr_none_idle hp hi]
      simp
  · by_cases hi : submissionIntent b = "submit"
    · rcases hv : isCodeValid s d.code d.type d.target now with - | -
      · rw [vr_some_invalid hp hi hv]
        simp
      · rw [vr_some_valid hp hi hv]
        simp
    · rw [vr_some_idle hp hi]
      simp

/-! ## Lemmas about key counts and the one-challenge invariant -/

theorem countKey_deleteMany_self (s : Store) (ty : VerificationType) (tgt : String) :
    countKey (verificationDeleteMany s ty tgt) ty tgt = 0 := by
  unfold countKey verificationDeleteMany
  rw [List.length_eq_zero, List.filter_eq_nil_iff]
  intro v hv
  rw [List.mem_filter] at hv
  obtain ⟨-, hk⟩ := hv
  rw [Bool.not_eq_true'] at hk
  simp [hk]

theorem countKey_deleteMany_le (s : Store) (ty : VerificationType) (tgt : String)
    (ty' : VerificationType) (tgt' : String) :
    countKey (verificationDeleteMany s ty tgt) ty' tgt' ≤ countKey s ty' tgt' := by
  unfold countKey verificationDeleteMany
  exact List.Sublist.length_le (List.Sublist.filter _ (List.filter_sublist s))

theorem keyMatches_new_false {ty : VerificationType} {tgt : String}
    {ty' : VerificationType} {tgt' : String} {secret : String} {period now : Nat}
    (h : ¬(ty' = ty ∧ tgt' = tgt)) :
    keyMatches ty' tgt' (newVerification ty tgt period secret now) = false := by
  unfold keyMatches newVerification
  by_cases hty : ty = ty'
  · have htgt : tgt ≠ tgt' := fun he => h ⟨hty.symm, he.symm⟩
    simp [hty, htgt]
  · simp [hty]

theorem filter_deleteMany_other {ty : VerificationType} {tgt : String}
    {ty' : VerificationType} {tgt' : String} (h : ¬(ty' = ty ∧ tgt' = tgt)) (s : Store) :
    List.filter (keyMatches ty' tgt') (verificationDeleteMany s ty tgt) =
      List.filter (keyMatches ty' tgt') s := by
  unfold verificationDeleteMany
  rw [List.filter_filter]
  apply List.filter_congr
  intro v hv
  by_cases hk : keyMatches ty' tgt' v = true
  · have hkey : keyMatches ty tgt v = false := by
      unfold keyMatches at hk ⊢
      rw [Bool.and_eq_true] at hk
      have h1 : v.type = ty' := by simpa using hk.1
      have h2 : v.target = tgt' := by simpa using hk.2
      by_cases hty : ty' = ty
      · have htgt : tgt' ≠ tgt := fun he => h ⟨hty, he⟩
        simp [h1, h2, hty, htgt]
      · simp [h1, hty]
    simp [hk, hkey]
  · rw [Bool.not_eq_true] at hk
    simp [hk]

theorem countKey_prepare_self (s : Store) (ty : VerificationType) (tgt : String)
    (period : Nat) (secret : String) (now : Nat) :
    countKey (prepareVerification s ty tgt period secret now).1 ty tgt = 1 := by
  unfold prepareVerification countKey
  rw [List.filter_append]
  rw [List.length_append]
  have h0 := countKey_deleteMany_self s ty tgt
  unfold countKey at h0
  rw [h0]
  simp [keyMatches, newVerification]

theorem filter_prepare_other (s : Store) (ty : VerificationType) (tgt : String)
    (period : Nat) (secret : String) (now : Nat)
    (ty' : VerificationType) (tgt' : String) (h : ¬(ty' = ty ∧ tgt' = tgt)) :
    List.filter (keyMatches ty' tgt') (prepareVerification s ty tgt period secret now).1 =
      List.filter (keyMatches ty' tgt') s := by
  unfold prepareVerification
  rw [List.filter_append]
  rw [filter_deleteMany_other h, List.filter_cons, keyMatches_new_false h]
  simp

theorem atMostOne_applyOp {s : Store} (h : atMostOnePerKey s) (op : StoreOp) :
    atMostOnePerKey (applyOp s op) := by
  cases op with
  | prepare ty tgt period secret now =>
      intro ty' tgt'
      by_cases hk : ty' = ty ∧ tgt' = tgt
      · obtain ⟨h1, h2⟩ := hk
        subst h1
        subst h2
        exact (countKey_prepare_self s ty' tgt' period secret now).le
      · have := filter_prepare_other s ty tgt period secret now ty' tgt' hk
        unfold applyOp countKey
        rw [this]
        exact h ty' tgt'
  | submit b now =>
      intro ty' tgt'
      rcases validateRequest_store_cases s b now with hs | ⟨ty0, tgt0, hs⟩
      · show countKey (validateRequest s b now).store ty' tgt' ≤ 1
        rw [hs]
        exact h ty' tgt'
      · show countKey (validateRequest s b now).store ty' tgt' ≤ 1
        rw [hs]
        exact le_trans (countKey_deleteMany_le s ty0 tgt0 ty' tgt') (h ty' tgt')

theorem runOps_atMostOne_aux : ∀ (ops : List StoreOp) (s : Store),
    atMostOnePerKey s → atMostOnePerKey (runOps s ops)
  | [], _, h => h
  | op :: ops, s, h => runOps_atMostOne_aux ops (applyOp s op) (atMostOne_applyOp h op)

theorem runOps_atMostOne (ops : List StoreOp) : atMostOnePerKey (runOps [] ops) := by
  apply runOps_atMostOne_aux
  intro ty tgt
  simp [countKey]

/-! ## Supersession: after a second issuance only the new code can validate -/

theorem isCodeValid_prepare_super {s : Store} {ty : VerificationType} {tgt : String}
    {period : Nat} {secret : String} {now : Nat} {code : String} {now2 : Nat}
    (h : isCodeValid (prepareVerification s ty tgt period secret now).1 code ty tgt now2
      = true) :
    code = generateTOTP secret "SHA256" period (now2 / 1000) := by
  unfold isCodeValid isCodeValidT at h
  rcases hf : verificationFindFirstLive (prepareVerification s ty tgt period secret now).1
      ty tgt now2 with - | v
  · rw [hf] at h
    simp at h
  · rw [hf] at h
    simp only at h
    obtain ⟨hmem, hty, htgt, -⟩ := findFirstLive_some hf
    have hs' : (prepareVerification s ty tgt period secret now).1 =
        verificationDeleteMany s ty tgt ++ [newVerification ty tgt period secret now] := rfl
    rw [hs'] at hmem
    rcases List.mem_append.mp hmem with hL | hR
    · exact absurd ⟨hty, htgt⟩ (noKey_deleteMany s ty tgt v hL)
    · have hv : v = newVerification ty tgt period secret now := List.mem_singleton.mp hR
      subst hv
      simp only [newVerification] at h
      have hw : typeOTPConfig ty = 0 := rfl
      rw [hw] at h
      exact verifyTOTP_window0_eq h

theorem schemaParse_none_of_badLen {b : Body} {c : String}
    (hc : b.code = some c) (hl : c.length ≠ 6) : schemaParse b = none := by
  obtain ⟨bi, bc, bt, btg, br⟩ := b
  rcases bc with - | c0
  · exact absurd hc (by simp)
  · have hcc : c0 = c := Option.some.inj hc
    subst hcc
    unfold schemaParse
    rcases bt with - | tyRaw
    · rfl
    · rcases btg with - | tgt
      · rfl
      · simp [hl]

/-! ## Claim theorems -/

/-- C1: single use / no replay.  When a submission is accepted (the run
dispatches to a handler for `(ty, tgt)`), the resulting store holds no
row for that key, every later `isCodeValid` lookup for the key returns
false at every time and for every code, and every later submission for
the same key — the same code included — fails and leaves the store
unchanged, as long as no new challenge is issued in between. -/
theorem C1_single_use_no_replay : ∀ (s : Store) (b : Body) (now : Nat)
    (ty : VerificationType) (tgt : String),
    (validateRequest s b now).outcome = Outcome.handled ty tgt →
    (∀ v ∈ (validateRequest s b now).store, ¬(v.type = ty ∧ v.target = tgt)) ∧
    (∀ code now2, isCodeValid (validateRequest s b now).store code ty tgt now2 = false) ∧
    (∀ (b2 : Body) (now2 : Nat) (d2 : VerifyData),
      schemaParse b2 = some d2 → d2.type = ty → d2.target = tgt →
      (validateRequest (validateRequest s b now).store b2 now2).outcome.isHandled = false ∧
      (validateRequest (validateRequest s b now).store b2 now2).store =
        (validateRequest s b now).store) := by
  intro s b now ty tgt h
  obtain ⟨d, hp, h1, h2, hi, hv, hstore, hev⟩ := validateRequest_handled_inv h
  rw [hstore]
  refine ⟨noKey_deleteMany s ty tgt,
    fun code now2 => isCodeValid_false_of_noKey (noKey_deleteMany s ty tgt), ?_⟩
  intro b2 now2 d2 hp2 ht2 htg2
  have hno : ∀ v ∈ verificationDeleteMany s ty tgt,
      ¬(v.type = d2.type ∧ v.target = d2.target) := by
    rw [ht2, htg2]
    exact noKey_deleteMany s ty tgt
  exact validateRequest_invalid hp2 (isCodeValid_false_of_noKey hno)

/-- Witness for C1 at the demonstration scenario: the accepted code
560247 no longer validates against the store left by its own accepting
run. -/
theorem C1_witness :
    isCodeValid (validateRequest sDemo bDemo 10000).store "560247"
      VerificationType.onboarding "a@x.com" 20000 = false :=
  (C1_single_use_no_replay sDemo bDemo 10000 VerificationType.onboarding "a@x.com"
    (by decide)).2.1 "560247" 20000

/-- C3 counterexample: deleting the challenge of a key that has no
record is an error — the Prisma `delete` by unique key raises P2025 on
the empty store rather than completing normally. -/
theorem C3_consume_counterexample :
    verificationDeleteByKey [] VerificationType.onboarding "a@x.com" =
      Except.error PrismaError.recordNotFound := rfl

/-- C3 (amended): the consuming delete raises `recordNotFound` exactly
when the store holds no row for the key, and it therefore never raises
inside `validateRequest`, whose consume step runs only after
`isCodeValid` found a live row for the key. -/
theorem C3_consume_amended :
    (∀ (s : Store) (ty : VerificationType) (tgt : String),
      (∀ v ∈ s, ¬(v.type = ty ∧ v.target = tgt)) →
        verificationDeleteByKey s ty tgt = Except.error PrismaError.recordNotFound) ∧
    (∀ (s : Store) (b : Body) (now : Nat),
      (validateRequest s b now).outcome ≠ Outcome.dbError) := by
  constructor
  · intro s ty tgt h
    unfold verificationDeleteByKey
    have hno : ¬ (List.any s (keyMatches ty tgt) = true) := by
      intro ha
      rw [List.any_eq_true] at ha
      obtain ⟨v, hv, hk⟩ := ha
      unfold keyMatches at hk
      rw [Bool.and_eq_true] at hk
      exact h v hv ⟨by simpa using hk.1, by simpa using hk.2⟩
    rw [if_neg hno]
  · exact validateRequest_no_dbError

/-- Witness for C3 (amended) at concrete inputs: an empty store makes
the consuming delete raise, and a concrete run never reports the
propagated Prisma error. -/
theorem C3_consume_witness :
    verificationDeleteByKey [] VerificationType.forgotPassword "b@y.com" =
        Except.error PrismaError.recordNotFound ∧
      (validateRequest [] bDemo 5).outcome ≠ Outcome.dbError :=
  ⟨C3_consume_amended.1 [] VerificationType.forgotPassword "b@y.com" (by simp),
    C3_consume_amended.2 [] bDemo 5⟩

/-- C4: expiry semantics of validation.  The lookup only ever returns a
row for the key whose expiry is null or strictly in the future;
validation returns false when the lookup finds nothing; and when every
row for the key carries an expiry that has passed, validation returns
false for every submitted code — the code that is numerically correct
for the time step included. -/
theorem C4_expiry_semantics :
    (∀ (s : Store) (ty : VerificationType) (tgt : String) (now : Nat) (v : Verification),
      verificationFindFirstLive s ty tgt now = some v →
        v.type = ty ∧ v.target = tgt ∧
          (v.expiresAt = none ∨ ∃ e, v.expiresAt = some e ∧ now < e)) ∧
    (∀ (s : Store) (code : String) (ty : VerificationType) (tgt : String) (now : Nat),
      verificationFindFirstLive s ty tgt now = none →
        isCodeValid s code ty tgt now = false) ∧
    (∀ (s : Store) (code : String) (ty : VerificationType) (tgt : String) (now : Nat),
      (∀ v ∈ s, v.type = ty → v.target = tgt → ∃ e, v.expiresAt = some e ∧ e ≤ now) →
        isCodeValid s code ty tgt now = false) := by
  refine ⟨?_, ?_, ?_⟩
  · intro s ty tgt now v h
    exact (findFirstLive_some h).2
  · intro s code ty tgt now h
    unfold isCodeValid isCodeValidT
    rw [h]
  · intro s code ty tgt now h
    unfold isCodeValid isCodeValidT
    rcases hf : verificationFindFirstLive s ty tgt now with - | v
    · rfl
    · obtain ⟨hmem, hty, htgt, hlive⟩ := findFirstLive_some hf
      obtain ⟨e, he, hle⟩ := h v hmem hty htgt
      rcases hlive with hnone | ⟨e', he', hlt⟩
      · rw [he] at hnone
        exact Option.noConfusion hnone
      · rw [he] at he'
        injection he' with hee
        subst hee
        exact absurd hlt (Nat.not_lt.mpr hle)

/-- Witness for C4 at a concrete store: a challenge whose expiry
(millisecond 1000) has passed rejects the numerically correct code of
its time step at millisecond 2000. -/
theorem C4_expiry_witness :
    isCodeValid [vExpired] (generateTOTP "A" "SHA256" 300 2)
      VerificationType.onboarding "a@x.com" 2000 = false := by
  apply C4_expiry_semantics.2.2
  intro v hv h1 h2
  have hveq : v = vExpired := List.mem_singleton.mp hv
  subst hveq
  exact ⟨1000, rfl, by decide⟩

/-- C5: ordering and atomicity of consume and dispatch.  A consuming
delete is traced only when the same submission parsed, carried the
submit intent and passed `isCodeValid` against the pre-state; the
consuming delete and the handler dispatch occur together or not at
all; an accepting run traces exactly the read, then the delete, then
the dispatch, in that order; and a traced dispatch means the run
reported the dispatch outcome, so no partial success is reported. -/
theorem C5_consume_dispatch_order : ∀ (s : Store) (b : Body) (now : Nat)
    (ty : VerificationType) (tgt : String),
    (Event.deleteKey ty tgt ∈ (validateRequest s b now).events →
      ∃ d, schemaParse b = some d ∧ d.type = ty ∧ d.target = tgt ∧
        submissionIntent b = "submit" ∧ isCodeValid s d.code d.type d.target now = true) ∧
    (Event.deleteKey ty tgt ∈ (validateRequest s b now).events ↔
      Event.dispatch ty tgt ∈ (validateRequest s b now).events) ∧
    ((validateRequest s b now).outcome = Outcome.handled ty tgt →
      (validateRequest s b now).events =
        [Event.findLive ty tgt, Event.deleteKey ty tgt, Event.dispatch ty tgt]) ∧
    (Event.dispatch ty tgt ∈ (validateRequest s b now).events →
      (validateRequest s b now).outcome = Outcome.handled ty tgt) := by
  intro s b now ty tgt
  rcases hp : schemaParse b with - | d
  · by_cases hi : submissionIntent b = "submit"
    · rw [vr_none_submit hp hi]
      refine ⟨?_, ?_, ?_, ?_⟩ <;> simp
    · rw [vr_none_idle hp hi]
      refine ⟨?_, ?_, ?_, ?_⟩ <;> simp
  · by_cases hi : submissionIntent b = "submit"
    · rcases hv : isCodeValid s d.code d.type d.target now with - | -
      · rw [vr_some_invalid hp hi hv]
        refine ⟨?_, ?_, ?_, ?_⟩ <;> simp
      · rw [vr_some_valid hp hi hv]
        refine ⟨?_, ?_, ?_, ?_⟩
        · intro hmem
          simp at hmem
          obtain ⟨h1, h2⟩ := hmem
          exact ⟨d, rfl, h1.symm, h2.symm, hi, hv⟩
        · simp
        · intro ho
          simp only [Outcome.handled.injEq] at ho
          obtain ⟨h1, h2⟩ := ho
          rw [h1, h2]
        · intro hmem
          simp at hmem
          obtain ⟨h1, h2⟩ := hmem
          simp [h1, h2]
    · rw [vr_some_idle hp hi]
      refine ⟨?_, ?_, ?_, ?_⟩ <;> simp

/-- Witness for C5 at the demonstration scenario: the accepting run
traces the read, the consuming delete and the dispatch in order. -/
theorem C5_order_witness :
    (validateRequest sDemo bDemo 10000).events =
      [Event.findLive VerificationType.onboarding "a@x.com",
        Event.deleteKey VerificationType.onboarding "a@x.com",
        Event.dispatch VerificationType.onboarding "a@x.com"] :=
  (C5_consume_dispatch_order sDemo bDemo 10000 VerificationType.onboarding
    "a@x.com").2.2.1 (by decide)

/-- C6: a GET whose query carries the code parameter is handled by the
loader exactly as the action handles the same data — the identical
validate, consume and dispatch sequence. -/
theorem C6_loader_consumes : ∀ (s : Store) (params : Body) (now : Nat),
    (params.code).isSome = true → loader s params now = action s params now := by
  intro s params now h
  have hne : ¬ params.code = none := by
    intro he
    rw [he] at h
    exact Bool.noConfusion h
  unfold loader action
  rw [if_neg hne]

/-- Witness for C6: on the demonstration query the loader run equals
the action run (an accepting, challenge-consuming run). -/
theorem C6_loader_witness : loader sDemo bDemo 10000 = action sDemo bDemo 10000 :=
  C6_loader_consumes sDemo bDemo 10000 rfl

/-- C7: the check does not mutate.  The trace of `isCodeValid` holds no
store write, and every run whose validation fails (invalid code, wrong
intent, or schema error — every run that does not dispatch) leaves the
store — each row with its secret, period and expiry — exactly as it
was. -/
theorem C7_check_read_only :
    (∀ (s : Store) (code : String) (ty : VerificationType) (tgt : String) (now : Nat),
      ∀ e ∈ (isCodeValidT s code ty tgt now).2, Event.isStoreWrite e = false) ∧
    (∀ (s : Store) (b : Body) (now : Nat),
      (validateRequest s b now).outcome.isHandled = false →
        (validateRequest s b now).store = s) := by
  constructor
  · intro s code ty tgt now e he
    rw [isCodeValidT_events] at he
    have heq : e = Event.findLive ty tgt := List.mem_singleton.mp he
    rw [heq]
    rfl
  · intro s b now h
    exact validateRequest_not_handled_store h

/-- Witness for C7 at a concrete failing submission: the event of the
check is not a store write, and the run on the wrong code 000000
leaves the store unchanged. -/
theorem C7_frame_witness :
    Event.isStoreWrite (Event.findLive VerificationType.onboarding "a@x.com") = false ∧
      (validateRequest sDemo bWrong 10000).store = sDemo :=
  ⟨C7_check_read_only.1 sDemo "000000" VerificationType.onboarding "a@x.com" 10000
      (Event.findLive VerificationType.onboarding "a@x.com") (by decide),
    C7_check_read_only.2 sDemo bWrong 10000 (by decide)⟩

/-- C8: a submitted code whose length is not six fails the base schema,
so the refinement — and with it every store access — never runs: the
run traces no store event, leaves the store unchanged, and on a
submit-intent submission rejects the input with the error response. -/
theorem C8_malformed_short_circuit : ∀ (s : Store) (b : Body) (now : Nat) (c : String),
    b.code = some c → c.length ≠ 6 →
    (validateRequest s b now).events = [] ∧ (validateRequest s b now).store = s ∧
      (submissionIntent b = "submit" →
        (validateRequest s b now).outcome = Outcome.error) := by
  intro s b now c hc hl
  have hp := schemaParse_none_of_badLen hc hl
  by_cases hi : submissionIntent b = "submit"
  · rw [vr_none_submit hp hi]
    exact ⟨rfl, rfl, fun _ => rfl⟩
  · rw [vr_none_idle hp hi]
    exact ⟨rfl, rfl, fun h => absurd h hi⟩

/-- Witness for C8: the four-character code 1234 produces a run with an
empty event trace, an unchanged store, and the rejecting error
response. -/
theorem C8_malformed_witness :
    (validateRequest sDemo bShort 10000).events = [] ∧
      (validateRequest sDemo bShort 10000).store = sDemo ∧
      (validateRequest sDemo bShort 10000).outcome = Outcome.error := by
  obtain ⟨h1, h2, h3⟩ := C8_malformed_short_circuit sDemo bShort 10000 "1234" rfl (by decide)
  exact ⟨h1, h2, h3 rfl⟩

/-- C2 counterexample: the first code of a superseded challenge can
still validate within its original period.  The second issuance draws
the secret `secretColl`, whose code at the submission time step equals
the first code, so the claim that the first code always validates as
false after supersession is refuted at this input. -/
theorem C2_supersession_counterexample :
    isCodeValid
      (prepareVerification
        (prepareVerification [] VerificationType.onboarding "a@x.com" 300 "A" 0).1
        VerificationType.onboarding "a@x.com" 300 secretColl 0).1
      (prepareVerification [] VerificationType.onboarding "a@x.com" 300 "A" 0).2
      VerificationType.onboarding "a@x.com" 10000 = true := by decide

/-- C2 (amended): issuing a challenge leaves exactly one row for its
key and every other key untouched; after any sequence of issuances and
submissions from the empty store, at most one challenge exists per
key; and once a second challenge is issued for a pair, a code
validates only by equalling the new challenge's code for the
submission time step — the superseded challenge itself can never
validate a code again, though the old code string still passes when it
collides with the new code. -/
theorem C2_supersession_amended :
    (∀ (s : Store) (ty : VerificationType) (tgt : String) (period : Nat)
        (secret : String) (now : Nat),
      countKey (prepareVerification s ty tgt period secret now).1 ty tgt = 1 ∧
      ∀ (ty' : VerificationType) (tgt' : String), ¬(ty' = ty ∧ tgt' = tgt) →
        List.filter (keyMatches ty' tgt')
            (prepareVerification s ty tgt period secret now).1 =
          List.filter (keyMatches ty' tgt') s) ∧
    (∀ ops : List StoreOp, atMostOnePerKey (runOps [] ops)) ∧
    (∀ (s : Store) (ty : VerificationType) (tgt : String) (period : Nat)
        (secret : String) (now : Nat) (code : String) (now2 : Nat),
      isCodeValid (prepareVerification s ty tgt period secret now).1 code ty tgt now2
          = true →
        code = generateTOTP secret "SHA256" period (now2 / 1000)) := by
  refine ⟨?_, runOps_atMostOne, ?_⟩
  · intro s ty tgt period secret now
    exact ⟨countKey_prepare_self s ty tgt period secret now,
      fun ty' tgt' h => filter_prepare_other s ty tgt period secret now ty' tgt' h⟩
  · intro s ty tgt period secret now code now2 h
    exact isCodeValid_prepare_super h

/-- Witness for C2 (amended) at the demonstration scenario: the code
that validates after the second issuance is exactly the new secret's
code for the submission time step. -/
theorem C2_supersession_witness :
    "560248" = generateTOTP "B" "SHA256" 300 (10000 / 1000) :=
  C2_supersession_amended.2.2
    (prepareVerification [] VerificationType.onboarding "a@x.com" 300 "A" 0).1
    VerificationType.onboarding "a@x.com" 300 "B" 0 "560248" 10000 (by decide)

/-- C9: the TOTP round trip.  For every secret, algorithm, positive
period and time, the code generated for that time verifies against the
same secret, algorithm and period with window zero at the same time. -/
theorem C9_totp_round_trip : ∀ (secret algorithm : String) (period time : Nat),
    0 < period →
    verifyTOTP (generateTOTP secret algorithm period time) secret algorithm period 0 time
      = true := by
  intro secret algorithm period time _
  exact verifyTOTP_generateTOTP secret algorithm period time

/-- Witness for C9 at concrete inputs. -/
theorem C9_round_trip_witness :
    verifyTOTP (generateTOTP "A" "SHA256" 300 10) "A" "SHA256" 300 0 10 = true :=
  C9_totp_round_trip "A" "SHA256" 300 10 (by decide)
